import Mathlib

/-!
Shallow embedding of the cancellable TCP connection establisher in
libavformat/tcp.c: the process-wide DNS resolution cache
(`get_dns_cache` / `set_dns_cache`), the timeout-bounded asynchronous
resolver (`ijk_tcp_getaddrinfo_nonblock` and its one-by-one worker), and
the candidate failover loop of `tcp_open` (default connect mode).

Machine integers are modelled as `Int`/`Nat` (no overflow is relevant to
the properties below), heap allocation is assumed to succeed, and the
scheduling of the background resolver task is captured by an explicit
trace of per-iteration observations of the shared request state.
-/

set_option autoImplicit false

namespace IjkTcp

/-- Size in bytes of `struct sockaddr` on the targeted platforms: a 16-byte
fixed struct. `get_dns_cache` and `set_dns_cache` copy exactly this many
bytes of an endpoint. -/
def sizeofSockaddr : Nat := 16

/-- The AVERROR_EXIT error code (FFERRTAG of the letters E,X,I,T, negated),
used by the wait loop for the aborted/cancelled outcome. -/
def AVERROR_EXIT : Int := -1414092869

/-- The ETIMEDOUT errno value returned by an expired timed condition wait. -/
def ETIMEDOUT : Int := 110

/-- Address family constant for IPv4. -/
def AF_INET : Int := 2

/-- Address family constant for IPv6. -/
def AF_INET6 : Int := 10

/-- One `struct addrinfo` node, without its `ai_next` link: candidate chains
are modelled as `List Addrinfo`. The endpoint `ai_addr` is an optional byte
list (`none` models a NULL pointer); `ai_addrlen` is the declared length
field, which need not match the stored byte list after truncating copies. -/
structure Addrinfo where
  ai_family : Int
  ai_socktype : Int
  ai_protocol : Int
  ai_addrlen : Nat
  ai_addr : Option (List Nat)
  ai_canonname : Option String
  deriving Repr, DecidableEq

/-- One value of the process-wide DNS dictionary: the insertion timestamp in
microseconds and the privately constructed single-record address list. -/
structure DnsCacheInfo where
  dns_cache_time : Int
  res : Option Addrinfo
  deriving Repr, DecidableEq

/-- The process-wide DNS dictionary. A key bound to `none` models an entry
whose stored pointer value is 0 (the code writes `av_dict_set_int(.., 0, 0)`
to invalidate): the entry string survives but no live cache info remains. -/
abbrev DnsDict := List (String × Option DnsCacheInfo)

/-- Case-sensitive dictionary lookup (`av_dict_get` with AV_DICT_MATCH_CASE). -/
def dictGet : DnsDict → String → Option (Option DnsCacheInfo)
  | [], _ => none
  | (k, v) :: rest, h => if k = h then some v else dictGet rest h

/-- Dictionary update (`av_dict_set_int`): replaces any existing binding of
the key. -/
def dictSet (d : DnsDict) (k : String) (v : Option DnsCacheInfo) : DnsDict :=
  (k, v) :: d.filter (fun p => p.1 ≠ k)

/-- The live cache entry for a hostname: present only when the dictionary
binds the key to a non-null cache info. -/
def liveEntry (d : DnsDict) (h : String) : Option DnsCacheInfo :=
  match dictGet d h with
  | some (some info) => some info
  | _ => none

/-- The cache-relevant option fields of TCPContext. -/
structure CacheOpts where
  dns_cache_clear : Int
  dns_cache_timeout : Int
  deriving Repr, DecidableEq

/-- Embedding of `get_dns_cache` (tcp.c lines 356-413). Returns the hit flag,
the deep-copied record handed to the caller (`*p_ai`), and the updated
dictionary. Allocation is assumed to succeed. The deep copy duplicates the
whole struct, replaces the endpoint with a copy of its first
`sizeofSockaddr` bytes, and nulls the canonical name and the next link (the
returned option carries a single record). -/
def get_dns_cache (opts : CacheOpts) (d : DnsDict) (hostname : String)
    (cur_time : Int) : Bool × Option Addrinfo × DnsDict :=
  if cur_time < 0 ∨ hostname = "" then (false, none, d)
  else
    match dictGet d hostname with
    | none => (false, none, d)
    | some none => (false, none, d)
    | some (some info) =>
      if opts.dns_cache_clear ≠ 0 then (false, none, dictSet d hostname none)
      else if opts.dns_cache_timeout < 0 ∨
          info.dns_cache_time + opts.dns_cache_timeout * 1000 > cur_time then
        match info.res with
        | some r =>
          match r.ai_addr with
          | some addrBytes =>
            (true,
             some { r with
                      ai_addr := some (addrBytes.take sizeofSockaddr),
                      ai_canonname := none },
             d)
          | none => (false, none, dictSet d hostname none)
        | none => (false, none, dictSet d hostname none)
      else (false, none, dictSet d hostname none)

/-- Embedding of `set_dns_cache` (tcp.c lines 415-454): stores a deep copy of
the current candidate under the hostname, keeping the declared address
length from the struct copy but copying only the first `sizeofSockaddr`
bytes of the endpoint, with canonical name and next link nulled. -/
def set_dns_cache (d : DnsDict) (hostname : String) (cur_ai : Option Addrinfo)
    (cur_time : Int) : DnsDict :=
  if cur_time < 0 ∨ hostname = "" then d
  else
    match cur_ai with
    | none => d
    | some rec =>
      match rec.ai_addr with
      | none => d
      | some addrBytes =>
        dictSet d hostname
          (some { dns_cache_time := cur_time,
                  res := some { rec with
                                  ai_addr := some (addrBytes.take sizeofSockaddr),
                                  ai_canonname := none } })

/-- TTL validity as the specification words it: the entry is fresh exactly
when the TTL is negative or the age (microseconds) is at most the TTL
(microseconds). Stated for comparison against `get_dns_cache`. -/
def spec_ttl_valid (ttl age : Int) : Prop := ttl < 0 ∨ age ≤ ttl

instance (ttl age : Int) : Decidable (spec_ttl_valid ttl age) := by
  unfold spec_ttl_valid
  infer_instance

def hostC1 : String := "host.example"

def recC1 : Addrinfo :=
  { ai_family := AF_INET, ai_socktype := 1, ai_protocol := 6,
    ai_addrlen := 16, ai_addr := some (List.replicate 16 0),
    ai_canonname := none }

def infoC1 : DnsCacheInfo := { dns_cache_time := 0, res := some recC1 }

def optsC1 : CacheOpts := { dns_cache_clear := 0, dns_cache_timeout := 2 }

/-- C1: at an entry stored at time 0 with `dns_cache_timeout = 2`
(documented as microseconds) and a lookup at time 1000 (age 1000
microseconds, far beyond the TTL), `get_dns_cache` still reports a hit:
the code compares `resolvedAt + ttl * 1000 > now`, scaling the
microsecond-documented TTL by 1000, so the claimed microsecond TTL bound
(`ttl < 0 ∨ age ≤ ttl`) is violated by the code. -/
theorem C1_ttl_unit_mismatch :
    (get_dns_cache optsC1 [(hostC1, some infoC1)] hostC1 1000).1 = true
    ∧ ¬ spec_ttl_valid optsC1.dns_cache_timeout (1000 - infoC1.dns_cache_time) := by
  decide

/-- Outcome of a resolution as seen by the caller of
`ijk_tcp_getaddrinfo_nonblock`: the returned candidate list on success
(return value 0 with `*res` set), or the nonzero/negative error code. -/
inductive ResolveResult where
  | success (res : List Addrinfo)
  | error (code : Int)
  deriving Repr, DecidableEq

/-- Consumption of the shared request state by the wait loop (tcp.c lines
301-308): a non-empty stored list is success; otherwise the last recorded
resolution error if any, else AVERROR_EXIT. -/
def consume (res : List Addrinfo) (lastError : Int) : ResolveResult :=
  if res ≠ [] then ResolveResult.success res
  else ResolveResult.error (if lastError ≠ 0 then lastError else AVERROR_EXIT)

/-- One iteration's observation of the shared request state and of the
environment inside the wait loop of `ijk_tcp_getaddrinfo_nonblock`:
the `finished` flag and partial result sampled at the top-of-loop check,
the timed-wait return value, the interrupt-predicate value sampled after
the wait, and the clock value sampled at the end of the iteration. -/
structure WaitObs where
  finished : Bool
  res : List Addrinfo
  last_error : Int
  waitRet : Int
  interrupted : Bool
  nowAfter : Int
  deriving Repr, DecidableEq

/-- Embedding of the wait loop of `ijk_tcp_getaddrinfo_nonblock` (tcp.c
lines 295-329), driven by a trace of per-iteration observations. `none`
means the trace ended before the loop broke (the real loop always runs to
a break, so theorems only concern traces long enough to decide). -/
def waitLoop (start timeout : Int) : Int → List WaitObs → Option ResolveResult
  | _, [] => none
  | now, o :: rest =>
    if o.finished ∨ start + timeout < now then
      some (consume o.res o.last_error)
    else if o.waitRet ≠ 0 ∧ o.waitRet ≠ ETIMEDOUT then
      some (ResolveResult.error AVERROR_EXIT)
    else if o.interrupted then
      some (ResolveResult.error AVERROR_EXIT)
    else
      waitLoop start timeout o.nowAfter rest

/-- Translation of a raw `getaddrinfo` outcome (error code, or 0 with a
result list) into a `ResolveResult`. -/
def syncResult : Except Int (List Addrinfo) → ResolveResult
  | Except.ok l => ResolveResult.success l
  | Except.error e => ResolveResult.error e

/-- Embedding of `ijk_tcp_getaddrinfo_nonblock` (tcp.c lines 251-333).
The blocking platform resolver is the oracle `gai`; the background task's
interleaving with the waiter is the observation trace. The first component
records whether a background worker task was spawned. An empty hostname
string is normalised to a null hostname before anything else. -/
def ijk_tcp_getaddrinfo_nonblock (gai : Option String → String → Except Int (List Addrinfo))
    (hostname : Option String) (servname : String) (timeout : Int)
    (start : Int) (trace : List WaitObs) : Bool × Option ResolveResult :=
  let hn := if hostname = some "" then none else hostname
  if timeout ≤ 0 then
    (false, some (syncResult (gai hn servname)))
  else
    (true, waitLoop start timeout start trace)

/-- Result list of one per-family `getaddrinfo` call: its list on success,
nothing on failure. -/
def okList : Except Int (List Addrinfo) → List Addrinfo
  | Except.ok l => l
  | Except.error _ => []

/-- The fixed family order of the one-by-one worker (tcp.c line 220). -/
def family_option : List Int := [AF_INET, AF_INET6]

/-- One iteration of the loop in `tcp_getaddrinfo_one_by_one_worker`
(tcp.c lines 224-242): a failed family records its error code and moves
on; a successful family's list is linked onto the end of the combined
list under the request lock. -/
def one_by_one_step (gaiFam : Int → Except Int (List Addrinfo))
    (acc : List Addrinfo × Int) (fam : Int) : List Addrinfo × Int :=
  match gaiFam fam with
  | Except.error e => (acc.1, e)
  | Except.ok l => (acc.1 ++ l, acc.2)

/-- Embedding of `tcp_getaddrinfo_one_by_one_worker` (tcp.c lines 210-249):
issues one resolution per family in `family_option` order and returns the
final shared state (combined list, last recorded error; the request is
zero-initialised so the error starts at 0). -/
def tcp_getaddrinfo_one_by_one_worker
    (gaiFam : Int → Except Int (List Addrinfo)) : List Addrinfo × Int :=
  family_option.foldl (one_by_one_step gaiFam) ([], 0)

def obsC4 : WaitObs :=
  { finished := true, res := [], last_error := 4, waitRet := 0,
    interrupted := false, nowAfter := 0 }

/-- C4 counterexample: the wait loop observes completion with an empty
partial list after the one-by-one worker recorded the platform resolution
error 4 (EAI_FAIL); the loop returns that platform error code, not the
distinct aborted error AVERROR_EXIT the claim requires for every empty
result. -/
theorem C4_counterexample :
    waitLoop 0 1000000 0 [obsC4] = some (ResolveResult.error 4)
    ∧ ResolveResult.error 4 ≠ ResolveResult.error AVERROR_EXIT := by
  decide

/-- C4 (amended): when the wait loop observes task completion or deadline
expiry, a non-empty partial list is returned as success; an empty list
yields the last recorded platform resolution error when one was recorded,
and the distinct aborted error AVERROR_EXIT only when none was. -/
theorem C4_consume_partial (start timeout now : Int) (o : WaitObs)
    (rest : List WaitObs) (hdone : o.finished = true ∨ start + timeout < now) :
    waitLoop start timeout now (o :: rest) = some (consume o.res o.last_error)
    ∧ (o.res ≠ [] → consume o.res o.last_error = ResolveResult.success o.res)
    ∧ (o.res = [] → o.last_error ≠ 0 →
        consume o.res o.last_error = ResolveResult.error o.last_error)
    ∧ (o.res = [] → o.last_error = 0 →
        consume o.res o.last_error = ResolveResult.error AVERROR_EXIT) := by
  refine ⟨?_, ?_, ?_, ?_⟩
  · have : (o.finished ∨ start + timeout < now) := by
      rcases hdone with h | h
      · exact Or.inl (by simp [h])
      · exact Or.inr h
    simp [waitLoop, this]
  · intro h
    simp [consume, h]
  · intro h he
    simp [consume, h, he]
  · intro h he
    simp [consume, h, he]

def obsC4w : WaitObs :=
  { finished := true, res := [recC1], last_error := 0, waitRet := 0,
    interrupted := false, nowAfter := 0 }

/-- C4 witness: the amended statement applied at a finished observation
carrying one record. -/
theorem C4_consume_partial_witness :
    waitLoop 0 1000000 0 [obsC4w] = some (consume obsC4w.res obsC4w.last_error)
    ∧ consume obsC4w.res obsC4w.last_error = ResolveResult.success obsC4w.res := by
  have h := C4_consume_partial 0 1000000 0 obsC4w [] (Or.inl (by decide))
  exact ⟨h.1, h.2.1 (by decide)⟩

/-- C6: whenever an iteration of the wait loop reaches the bounded wait
(the task was not finished and the deadline had not passed at the top of
the loop), the wait returns normally, and the interrupt predicate signals
cancellation at that wakeup, the loop returns at that wakeup with the
aborted error AVERROR_EXIT — whatever partial result is stored and
whatever the rest of the trace (the still-running task) would do. -/
theorem C6_interrupt_returns_at_wakeup (start timeout now : Int) (o : WaitObs)
    (rest : List WaitObs) (hfin : o.finished = false)
    (hdl : ¬ start + timeout < now)
    (hwait : o.waitRet = 0 ∨ o.waitRet = ETIMEDOUT)
    (hint : o.interrupted = true) :
    waitLoop start timeout now (o :: rest)
      = some (ResolveResult.error AVERROR_EXIT) := by
  have hnot : ¬ (o.finished ∨ start + timeout < now) := by
    simp [hfin, hdl]
  have hw : ¬ (o.waitRet ≠ 0 ∧ o.waitRet ≠ ETIMEDOUT) := by
    rcases hwait with h | h <;> simp [h]
  simp [waitLoop, hnot, hw, hint]

def obsC6 : WaitObs :=
  { finished := false, res := [recC1], last_error := 0, waitRet := 110,
    interrupted := true, nowAfter := 50 }

/-- C6 witness: an interrupted wakeup with a non-empty partial result and a
pending trace still aborts immediately. -/
theorem C6_interrupt_returns_at_wakeup_witness :
    waitLoop 0 1000000 0 [obsC6, obsC4w]
      = some (ResolveResult.error AVERROR_EXIT) :=
  C6_interrupt_returns_at_wakeup 0 1000000 0 obsC6 [obsC4w] (by decide)
    (by decide) (Or.inr (by decide)) (by decide)

/-- C7: the one-by-one worker resolves IPv4 then IPv6 sequentially and the
combined list is the IPv4 results followed by the IPv6 results appended at
the end; a failed family only records its error code while the other
family's results survive; and whenever the combined list is non-empty the
waiter's consumption on completion reports success with that list, not a
failure. -/
theorem C7_split_by_family (gaiFam : Int → Except Int (List Addrinfo)) :
    (tcp_getaddrinfo_one_by_one_worker gaiFam).1
        = okList (gaiFam AF_INET) ++ okList (gaiFam AF_INET6)
    ∧ (∀ e l6, gaiFam AF_INET = Except.error e → gaiFam AF_INET6 = Except.ok l6 →
        tcp_getaddrinfo_one_by_one_worker gaiFam = (l6, e))
    ∧ ((tcp_getaddrinfo_one_by_one_worker gaiFam).1 ≠ [] →
        consume (tcp_getaddrinfo_one_by_one_worker gaiFam).1
            (tcp_getaddrinfo_one_by_one_worker gaiFam).2
          = ResolveResult.success (tcp_getaddrinfo_one_by_one_worker gaiFam).1) := by
  refine ⟨?_, ?_, ?_⟩
  · rcases h4 : gaiFam AF_INET with e4 | l4 <;>
      rcases h6 : gaiFam AF_INET6 with e6 | l6 <;>
        simp [tcp_getaddrinfo_one_by_one_worker, family_option, one_by_one_step,
          okList, h4, h6]
  · intro e l6 h4 h6
    simp [tcp_getaddrinfo_one_by_one_worker, family_option, one_by_one_step, h4, h6]
  · intro hne
    simp [consume, hne]

def gaiFamC7 (fam : Int) : Except Int (List Addrinfo) :=
  if fam = AF_INET6 then Except.ok [recC1] else Except.error 4

/-- C7 witness: IPv4 fails with error 4, IPv6 succeeds with one record; the
worker state is that record with error 4 recorded, and consumption on
completion is success. -/
theorem C7_split_by_family_witness :
    tcp_getaddrinfo_one_by_one_worker gaiFamC7 = ([recC1], 4)
    ∧ consume [recC1] 4 = ResolveResult.success [recC1] := by
  have h := C7_split_by_family gaiFamC7
  refine ⟨h.2.1 4 [recC1] rfl rfl, ?_⟩
  have h3 := h.2.2
  rw [h.2.1 4 [recC1] rfl rfl] at h3
  exact h3 (by decide)

/-- C8: with a zero or negative resolver timeout the call performs the
blocking resolution inline and returns its outcome directly: no background
task is spawned and the observation trace (hence the interrupt predicate)
is never consulted. -/
theorem C8_synchronous_path (gai : Option String → String → Except Int (List Addrinfo))
    (hostname : Option String) (servname : String) (timeout start : Int)
    (trace : List WaitObs) (ht : timeout ≤ 0) :
    ijk_tcp_getaddrinfo_nonblock gai hostname servname timeout start trace
      = (false, some (syncResult
          (gai (if hostname = some "" then none else hostname) servname))) := by
  simp [ijk_tcp_getaddrinfo_nonblock, ht]

def gaiC8 (_h : Option String) (_s : String) : Except Int (List Addrinfo) :=
  Except.ok [recC1]

/-- C8 witness: a timeout of 0 with a non-trivial trace still resolves
inline with no task spawned. -/
theorem C8_synchronous_path_witness :
    ijk_tcp_getaddrinfo_nonblock gaiC8 (some "host.example") "80" 0 0 [obsC6]
      = (false, some (ResolveResult.success [recC1])) := by
  have h := C8_synchronous_path gaiC8 (some "host.example") "80" 0 0 [obsC6]
    (by decide)
  simpa [gaiC8, syncResult] using h

/-- Environment outcome for one candidate in the `tcp_open` connect loop
(default mode, `listen == 0`): the `ff_socket` return value, the
`ff_neterrno` value when socket creation fails, the will-open hook return,
the `ff_listen_connect` return, and the did-open hook's return when invoked
with the connect error respectively after a successful connect. -/
structure CandOutcome where
  fd : Int
  sockErr : Int
  willOpen : Int
  connectRet : Int
  didOpenErr : Int
  didOpenOk : Int
  deriving Repr, DecidableEq

/-- Observable socket events of the connect loop: a creation attempt for the
candidate at a position, and the closing of a descriptor. -/
inductive ConnEv where
  | attempt (i : Nat)
  | close (fd : Int)
  deriving Repr, DecidableEq

/-- Terminal outcome of the connect loop: an open descriptor together with
the winning candidate, or the error code of the step that ended the
operation. -/
inductive ConnRes where
  | ok (fd : Int) (winner : Addrinfo)
  | err (code : Int)
  deriving Repr, DecidableEq

/-- Close events emitted by `if (fd >= 0) closesocket(fd)`. -/
def closeEvs (fd : Int) : List ConnEv :=
  if 0 ≤ fd then [ConnEv.close fd] else []

/-- Embedding of the candidate loop of `tcp_open` in the default connect
mode (tcp.c lines 553-658, `restart` / `fail` / `fail1` labels; the listen
branches and the IPv6 port fix-up are outside the claims). Per candidate:
socket-creation failure takes the `fail` path with `ff_neterrno`; a
will-open hook refusal takes `fail1`; a failed connect takes `fail1` when
the did-open hook aborts or the error is AVERROR_EXIT and the `fail` path
otherwise; after a successful connect a nonzero did-open hook return takes
`fail1`. The `fail` path advances to the next candidate after closing the
socket when one exists, and falls through to `fail1` otherwise. -/
def tcp_open_loop (outs : Nat → CandOutcome) :
    List Addrinfo → Nat → List ConnEv × ConnRes
  | [], _ => ([], ConnRes.err 0)
  | c :: rest, i =>
    let o := outs i
    if o.fd < 0 then
      match rest with
      | [] => (ConnEv.attempt i :: closeEvs o.fd, ConnRes.err o.sockErr)
      | r :: rs =>
        let next := tcp_open_loop outs (r :: rs) (i + 1)
        (ConnEv.attempt i :: (closeEvs o.fd ++ next.1), next.2)
    else if o.willOpen ≠ 0 then
      (ConnEv.attempt i :: closeEvs o.fd, ConnRes.err o.willOpen)
    else if o.connectRet < 0 then
      if o.didOpenErr ≠ 0 ∨ o.connectRet = AVERROR_EXIT then
        (ConnEv.attempt i :: closeEvs o.fd, ConnRes.err o.connectRet)
      else
        match rest with
        | [] => (ConnEv.attempt i :: closeEvs o.fd, ConnRes.err o.connectRet)
        | r :: rs =>
          let next := tcp_open_loop outs (r :: rs) (i + 1)
          (ConnEv.attempt i :: (closeEvs o.fd ++ next.1), next.2)
    else if o.didOpenOk ≠ 0 then
      (ConnEv.attempt i :: closeEvs o.fd, ConnRes.err o.didOpenOk)
    else
      ([ConnEv.attempt i], ConnRes.ok o.fd c)

/-- A candidate outcome that fails without aborting the whole operation:
either socket creation fails, or the blocking connect fails with an
ordinary error (not AVERROR_EXIT) and neither hook objects. -/
def ordinaryFail (o : CandOutcome) : Prop :=
  o.fd < 0 ∨ (0 ≤ o.fd ∧ o.willOpen = 0 ∧ o.connectRet < 0
    ∧ o.didOpenErr = 0 ∧ o.connectRet ≠ AVERROR_EXIT)

instance (o : CandOutcome) : Decidable (ordinaryFail o) := by
  unfold ordinaryFail
  infer_instance

/-- A candidate outcome on which the connection fully succeeds. -/
def lastOk (o : CandOutcome) : Prop :=
  0 ≤ o.fd ∧ o.willOpen = 0 ∧ 0 ≤ o.connectRet ∧ o.didOpenOk = 0

instance (o : CandOutcome) : Decidable (lastOk o) := by
  unfold lastOk
  infer_instance

/-- The error code the `fail` path carries for an ordinary candidate
failure. -/
def failCode (o : CandOutcome) : Int :=
  if o.fd < 0 then o.sockErr else o.connectRet

/-- The canonical event trace of the failover scenario: attempts in list
order starting at position `i`, each failed candidate's socket closed when
one was created, and a final bare attempt for the succeeding candidate. -/
def failoverTrace (outs : Nat → CandOutcome) (i : Nat) : Nat → List ConnEv
  | 0 => []
  | 1 => [ConnEv.attempt i]
  | n + 2 =>
    (ConnEv.attempt i :: closeEvs (outs i).fd) ++ failoverTrace outs (i + 1) (n + 1)

/-- Number of socket-creation attempts in an event trace. -/
def countAttempts (evs : List ConnEv) : Nat :=
  (evs.filter (fun e => match e with | ConnEv.attempt _ => true | _ => false)).length

/-- Embedding of the dns-cache invalidation block on the `fail1` path of
`tcp_open` (tcp.c lines 641-653): if the dictionary still binds the backed-up
hostname to a live cache info, the binding is overwritten with the null
value and the info freed; otherwise nothing changes. -/
def invalidate_on_fail (d : DnsDict) (h : String) : DnsDict :=
  match dictGet d h with
  | some (some _) => dictSet d h none
  | _ => d

/-- Embedding of the tail of `tcp_open` around the candidate loop: on
success the winning candidate may be written through to the cache (fresh
resolutions whose reported peer IP differs from the non-empty hostname);
on terminal failure a cache hit invalidates the hostname's entry, and the
loop's error code is returned unchanged. -/
def tcp_open_connect_phase (dnsCache hit : Bool) (hostname_bak control_ip : String)
    (cur_time : Int) (d : DnsDict) (outs : Nat → CandOutcome)
    (cands : List Addrinfo) : ConnRes × DnsDict × List ConnEv :=
  let r := tcp_open_loop outs cands 0
  match r.2 with
  | ConnRes.ok fd winner =>
    let d' := if dnsCache ∧ ¬ hit ∧ control_ip ≠ hostname_bak ∧ hostname_bak ≠ ""
              then set_dns_cache d hostname_bak (some winner) cur_time else d
    (ConnRes.ok fd winner, d', r.1)
  | ConnRes.err e =>
    let d' := if dnsCache ∧ hit then invalidate_on_fail d hostname_bak else d
    (ConnRes.err e, d', r.1)

theorem dictGet_dictSet (d : DnsDict) (k : String) (v : Option DnsCacheInfo) :
    dictGet (dictSet d k v) k = some v := by
  simp [dictGet, dictSet]

theorem liveEntry_invalidate_on_fail (d : DnsDict) (h : String) :
    liveEntry (invalidate_on_fail d h) h = none := by
  unfold invalidate_on_fail
  rcases hd : dictGet d h with _ | v
  · simp [liveEntry, hd]
  · rcases v with _ | info
    · simp [liveEntry, hd]
    · simp [liveEntry, dictGet_dictSet]

/-- C2: in the default connect mode, on a non-empty candidate list whose
first `N - 1` candidates fail ordinarily (socket creation fails, or the
connect fails without an abort condition — creation failure and connect
failure take the same `fail` path) and whose last candidate connects, the
loop attempts the candidates strictly in list order, closes each failed
candidate's socket before advancing, and succeeds on the last candidate:
the whole operation does not fail while a failing candidate has a
successor. -/
theorem C2_failover (cands : List Addrinfo) (outs : Nat → CandOutcome) (i : Nat)
    (hne : cands ≠ [])
    (hfail : ∀ j, j + 1 < cands.length → ordinaryFail (outs (i + j)))
    (hok : lastOk (outs (i + cands.length - 1))) :
    tcp_open_loop outs cands i
      = (failoverTrace outs i cands.length,
         ConnRes.ok (outs (i + cands.length - 1)).fd (cands.getLast hne)) := by
  induction cands generalizing i with
  | nil => exact absurd rfl hne
  | cons c rest ih =>
    cases rest with
    | nil =>
      obtain ⟨h1, h2, h3, h4⟩ := hok
      simp only [List.length_cons, List.length_nil, Nat.zero_add,
        Nat.add_sub_cancel] at h1 h2 h3 h4 ⊢
      simp [tcp_open_loop, failoverTrace, not_lt.mpr h1, h2, not_lt.mpr h3, h4]
    | cons c2 rest2 =>
      have hfail0 : ordinaryFail (outs i) := by
        have := hfail 0 (by simp)
        simpa using this
      have hih := ih (i := i + 1) (by simp)
        (fun j hj => by
          have := hfail (j + 1) (by simp at hj ⊢; omega)
          have harith : i + (j + 1) = i + 1 + j := by omega
          rwa [harith] at this)
        (by
          have harith : i + (c :: c2 :: rest2).length - 1
              = i + 1 + (c2 :: rest2).length - 1 := by
            simp
            omega
          rwa [harith] at hok)
      have harith2 : i + (c :: c2 :: rest2).length - 1
          = i + 1 + (c2 :: rest2).length - 1 := by
        simp
        omega
      have hlast : (c :: c2 :: rest2).getLast hne
          = (c2 :: rest2).getLast (by simp) := by
        exact List.getLast_cons _
      rcases hfail0 with hfd | ⟨h1, h2, h3, h4, h5⟩
      · simp only [tcp_open_loop, hfd, if_pos, hih]
        rw [harith2, hlast]
        simp [failoverTrace, hih]
      · simp only [tcp_open_loop, not_lt.mpr h1, if_neg, h2, h3, h4, h5]
        rw [harith2, hlast]
        simp [failoverTrace, hih, not_lt.mpr h1, h2, h3, h4, h5]

def recC3 : Addrinfo :=
  { ai_family := AF_INET6, ai_socktype := 1, ai_protocol := 6,
    ai_addrlen := 28, ai_addr := some (List.range 28),
    ai_canonname := none }

def outFailW : CandOutcome :=
  { fd := 3, sockErr := 0, willOpen := 0, connectRet := -7,
    didOpenErr := 0, didOpenOk := 0 }

def outOkW : CandOutcome :=
  { fd := 8, sockErr := 0, willOpen := 0, connectRet := 0,
    didOpenErr := 0, didOpenOk := 0 }

def outsC2 : Nat → CandOutcome := fun j => if j = 0 then outFailW else outOkW

/-- C2 witness: two candidates; the first's connect fails ordinarily, the
second connects: the loop attempts 0 then 1, closes descriptor 3 in
between, and succeeds with descriptor 8 on the last candidate. -/
theorem C2_failover_witness :
    tcp_open_loop outsC2 [recC1, recC3] 0
      = ([ConnEv.attempt 0, ConnEv.close 3, ConnEv.attempt 1],
         ConnRes.ok 8 recC3) := by
  have h := C2_failover [recC1, recC3] outsC2 0 (by decide)
    (fun j hj => by
      have hj' : j + 1 < 2 := by simpa using hj
      have hj0 : j = 0 := by omega
      subst hj0
      decide)
    (by decide)
  rw [h]
  rfl

def outVeto : CandOutcome :=
  { fd := 3, sockErr := 0, willOpen := 0, connectRet := 0,
    didOpenErr := 0, didOpenOk := 5 }

def outsC3 : Nat → CandOutcome := fun _ => outVeto

/-- C3 counterexample: with two candidates, the first candidate's blocking
connect succeeds but the did-connect hook vetoes (returns 5); the loop
returns the veto as the whole operation's error without ever attempting
the second candidate, contradicting the claim that the veto is treated as
a failure of that candidate only. -/
theorem C3_counterexample :
    (tcp_open_loop outsC3 [recC1, recC3] 0).2 = ConnRes.err 5
    ∧ ConnEv.attempt 1 ∉ (tcp_open_loop outsC3 [recC1, recC3] 0).1 := by
  decide

/-- C3 (amended): in the default connect mode, when the blocking connect
succeeds but the did-connect hook vetoes acceptance, the loop takes the
`fail1` path: it closes the socket and aborts the whole operation with the
hook's return value, attempting no further candidate even when candidates
remain. -/
theorem C3_did_open_veto_aborts (outs : Nat → CandOutcome) (c : Addrinfo)
    (rest : List Addrinfo) (i : Nat) (hfd : 0 ≤ (outs i).fd)
    (hwo : (outs i).willOpen = 0) (hcr : 0 ≤ (outs i).connectRet)
    (hveto : (outs i).didOpenOk ≠ 0) :
    tcp_open_loop outs (c :: rest) i
      = ([ConnEv.attempt i, ConnEv.close (outs i).fd],
         ConnRes.err (outs i).didOpenOk) := by
  cases rest with
  | nil =>
    simp [tcp_open_loop, closeEvs, not_lt.mpr hfd, hwo, not_lt.mpr hcr, hveto, hfd]
  | cons c2 rest2 =>
    simp [tcp_open_loop, closeEvs, not_lt.mpr hfd, hwo, not_lt.mpr hcr, hveto, hfd]

/-- C3 witness: the amended behaviour at the concrete vetoed run with a
second candidate remaining. -/
theorem C3_did_open_veto_aborts_witness :
    tcp_open_loop outsC3 [recC1, recC3] 0
      = ([ConnEv.attempt 0, ConnEv.close 3], ConnRes.err 5) := by
  have h := C3_did_open_veto_aborts outsC3 recC1 [recC3] 0 (by decide) (by decide)
    (by decide) (by decide)
  rw [h]
  rfl

/-- C5: whenever the candidates came from a cache hit and the connect loop
ends in a terminal failure, `tcp_open` invalidates the hostname's cache
entry before returning (no live entry remains for the key) and surfaces
exactly the loop's own error code — the invalidation itself never changes
the returned error. -/
theorem C5_invalidate_on_exhaustion (hostname control_ip : String)
    (cur_time : Int) (d : DnsDict) (outs : Nat → CandOutcome)
    (cands : List Addrinfo) (e : Int) (evs : List ConnEv)
    (hrun : tcp_open_loop outs cands 0 = (evs, ConnRes.err e)) :
    tcp_open_connect_phase true true hostname control_ip cur_time d outs cands
      = (ConnRes.err e, invalidate_on_fail d hostname, evs)
    ∧ liveEntry (invalidate_on_fail d hostname) hostname = none := by
  constructor
  · simp [tcp_open_connect_phase, hrun]
  · exact liveEntry_invalidate_on_fail d hostname

/-- C5 witness: a cache-hit connect whose single candidate fails; the
dictionary that held a live entry for the hostname holds none afterwards
and the connect error -7 is returned unchanged. -/
theorem C5_invalidate_on_exhaustion_witness :
    tcp_open_connect_phase true true hostC1 "1.2.3.4" 0
        [(hostC1, some infoC1)] (fun _ => outFailW) [recC1]
      = (ConnRes.err (-7), invalidate_on_fail [(hostC1, some infoC1)] hostC1,
         [ConnEv.attempt 0, ConnEv.close 3])
    ∧ liveEntry (invalidate_on_fail [(hostC1, some infoC1)] hostC1) hostC1
      = none := by
  exact C5_invalidate_on_exhaustion hostC1 "1.2.3.4" 0 [(hostC1, some infoC1)]
    (fun _ => outFailW) [recC1] (-7) [ConnEv.attempt 0, ConnEv.close 3]
    (by decide)

theorem get_dns_cache_hit_shape (opts : CacheOpts) (d : DnsDict) (h : String)
    (t : Int) :
    (get_dns_cache opts d h t).1 = false
    ∨ ∃ rec, (get_dns_cache opts d h t).2.1 = some rec
        ∧ rec.ai_canonname = none := by
  unfold get_dns_cache
  repeat' split
  all_goals first
    | (left; rfl)
    | (right; exact ⟨_, rfl, rfl⟩)

/-- C9: a cache hit always hands the caller a single record whose canonical
name is nulled (one-element candidate list), and a Connect using it makes
exactly one candidate attempt; when that single attempt fails ordinarily,
the candidate list is exhausted and the loop returns the attempt's error. -/
theorem C9_cache_hit_single_candidate :
    (∀ opts d h t, (get_dns_cache opts d h t).1 = true →
      ∃ rec, (get_dns_cache opts d h t).2.1 = some rec
        ∧ rec.ai_canonname = none)
    ∧ (∀ outs rec, countAttempts (tcp_open_loop outs [rec] 0).1 = 1)
    ∧ (∀ outs rec, ordinaryFail (outs 0) →
        (tcp_open_loop outs [rec] 0).2 = ConnRes.err (failCode (outs 0))) := by
  refine ⟨?_, ?_, ?_⟩
  · intro opts d h t hhit
    rcases get_dns_cache_hit_shape opts d h t with hf | hex
    · rw [hhit] at hf
      cases hf
    · exact hex
  · intro outs rec
    simp only [tcp_open_loop, closeEvs]
    split_ifs <;> simp [countAttempts]
  · intro outs rec hfail
    rcases hfail with hfd | ⟨h1, h2, h3, h4, h5⟩
    · simp [tcp_open_loop, failCode, hfd]
    · simp [tcp_open_loop, failCode, not_lt.mpr h1, h2, h3, h4, h5]

/-- C9 witness: the shape consequence at a fresh entry, and the single
attempt plus exhaustion at a failing outcome. -/
theorem C9_cache_hit_single_candidate_witness :
    (∃ rec, (get_dns_cache optsC1 [(hostC1, some infoC1)] hostC1 100).2.1
        = some rec ∧ rec.ai_canonname = none)
    ∧ countAttempts (tcp_open_loop (fun _ => outFailW) [recC1] 0).1 = 1
    ∧ (tcp_open_loop (fun _ => outFailW) [recC1] 0).2
      = ConnRes.err (failCode (outFailW)) := by
  obtain ⟨p1, p2, p3⟩ := C9_cache_hit_single_candidate
  exact ⟨p1 optsC1 [(hostC1, some infoC1)] hostC1 100 (by decide),
    p2 (fun _ => outFailW) recC1,
    p3 (fun _ => outFailW) recC1 (Or.inr (by decide))⟩

/-- C10: storing a record whose endpoint is longer than
`sizeofSockaddr` bytes truncates the endpoint to its first
`sizeofSockaddr` bytes while keeping the declared `ai_addrlen` from the
struct copy, and the lookup's deep copy returns those same truncated
bytes, which differ from the original endpoint. -/
theorem C10_sockaddr_truncation (opts : CacheOpts) (d : DnsDict) (h : String)
    (rec : Addrinfo) (bytes : List Nat) (t1 t2 : Int) (hh : h ≠ "")
    (ht1 : ¬ t1 < 0) (ht2 : ¬ t2 < 0) (hclear : opts.dns_cache_clear = 0)
    (hfresh : opts.dns_cache_timeout < 0
      ∨ t1 + opts.dns_cache_timeout * 1000 > t2)
    (haddr : rec.ai_addr = some bytes) (hlong : sizeofSockaddr < bytes.length) :
    dictGet (set_dns_cache d h (some rec) t1) h
      = some (some { dns_cache_time := t1,
                     res := some { rec with
                                     ai_addr := some (bytes.take sizeofSockaddr),
                                     ai_canonname := none } })
    ∧ (get_dns_cache opts (set_dns_cache d h (some rec) t1) h t2).2.1
      = some { rec with ai_addr := some (bytes.take sizeofSockaddr),
                        ai_canonname := none }
    ∧ bytes.take sizeofSockaddr ≠ bytes := by
  have hset : set_dns_cache d h (some rec) t1
      = dictSet d h (some { dns_cache_time := t1,
                            res := some { rec with
                                            ai_addr := some (bytes.take sizeofSockaddr),
                                            ai_canonname := none } }) := by
    simp [set_dns_cache, ht1, hh, haddr]
  refine ⟨?_, ?_, ?_⟩
  · rw [hset, dictGet_dictSet]
  · rw [hset]
    simp [get_dns_cache, ht2, hh, dictGet_dictSet, hclear, hfresh,
      List.take_take]
  · intro heq
    have hl := congrArg List.length heq
    rw [List.length_take, Nat.min_eq_left (Nat.le_of_lt hlong)] at hl
    exact absurd hl (Nat.ne_of_lt hlong)

/-- C10 witness: a 28-byte IPv6-style endpoint survives the store/lookup
round trip only as its first 16 bytes, with `ai_addrlen` still 28. -/
theorem C10_sockaddr_truncation_witness :
    dictGet (set_dns_cache [] hostC1 (some recC3) 0) hostC1
      = some (some { dns_cache_time := 0,
                     res := some { recC3 with
                                     ai_addr := some ((List.range 28).take sizeofSockaddr),
                                     ai_canonname := none } })
    ∧ (get_dns_cache optsC1 (set_dns_cache [] hostC1 (some recC3) 0) hostC1 5).2.1
      = some { recC3 with ai_addr := some ((List.range 28).take sizeofSockaddr),
                          ai_canonname := none }
    ∧ (List.range 28).take sizeofSockaddr ≠ List.range 28 := by
  exact C10_sockaddr_truncation optsC1 [] hostC1 recC3 (List.range 28) 0 5
    (by decide) (by decide) (by decide) (by decide) (Or.inr (by decide))
    (by decide) (by decide)

end IjkTcp
